import Mathlib

/-!
Verification of the vessel-allision analysis module
(`vessel_analysis.py`, Chesapeake Bay Bridge Eastbound).

The code is shallowly embedded: latitudes, longitudes, speeds and hull
dimensions are rationals (exact decimal literals), while derived physical
quantities (haversine distances, masses via fractional powers, impact
forces) live in the real numbers.  Fallible operations return `Option`.
-/

/-- The four discrete threat levels (the source uses the strings
"LOW", "MEDIUM", "HIGH", "CRITICAL"). -/
inductive ThreatLevel
  | LOW
  | MEDIUM
  | HIGH
  | CRITICAL
deriving DecidableEq, Repr

/-- Rank of a threat level, used to express monotonicity of the
level-assignment thresholds. -/
def levelRank : ThreatLevel → ℕ
  | .LOW => 0
  | .MEDIUM => 1
  | .HIGH => 2
  | .CRITICAL => 3

/-- The level-assignment chain at the end of `analyze_vessel_threat`:
threat_level starts at LOW and is overridden by the threshold chain
`>= 60 CRITICAL / >= 40 HIGH / >= 20 MEDIUM`. -/
def threatLevelOfScore (threat_score : ℕ) : ThreatLevel :=
  if threat_score ≥ 60 then .CRITICAL
  else if threat_score ≥ 40 then .HIGH
  else if threat_score ≥ 20 then .MEDIUM
  else .LOW

/-- The score-accumulation block of `analyze_vessel_threat` (lines 258-286):
`threat_score` starts at 0 and the four factor blocks add to it in turn. -/
noncomputable def threatScore (min_distance sog : ℝ) (is_approaching : Bool)
    (mass_tonnes : ℝ) : ℕ :=
  let score : ℕ := 0
  let score :=
    if min_distance < 0.5 then score + 40
    else if min_distance < 1.0 then score + 25
    else if min_distance < 2.0 then score + 10
    else score
  let score :=
    if sog > 12 then score + 30
    else if sog > 8 then score + 20
    else if sog > 4 then score + 10
    else score
  let score := if is_approaching then score + 20 else score
  let score :=
    if mass_tonnes > 50000 then score + 10
    else if mass_tonnes > 10000 then score + 5
    else score
  score

/-- Spec-side description of the distance factor, for comparison with the
accumulation in `threatScore`. -/
noncomputable def distanceFactor (d : ℝ) : ℕ :=
  if d < 0.5 then 40 else if d < 1.0 then 25 else if d < 2.0 then 10 else 0

/-- Spec-side description of the speed factor. -/
noncomputable def speedFactor (s : ℝ) : ℕ :=
  if s > 12 then 30 else if s > 8 then 20 else if s > 4 then 10 else 0

/-- Spec-side description of the heading factor. -/
def headingFactor (is_approaching : Bool) : ℕ :=
  if is_approaching then 20 else 0

/-- Spec-side description of the mass factor. -/
noncomputable def massFactor (m : ℝ) : ℕ :=
  if m > 50000 then 10 else if m > 10000 then 5 else 0

/-- A bridge pier: reference entity with coordinates and water depth. -/
structure Pier where
  lat : ℚ
  lon : ℚ
  water_depth_ft : ℚ
deriving DecidableEq, Repr

/-- The static pier table `CHESAPEAKE_BAY_BRIDGE_EASTBOUND_PIERS`.
Python dicts preserve insertion order, so it is embedded as an association
list in the order written in the source. -/
def CHESAPEAKE_BAY_BRIDGE_EASTBOUND_PIERS : List (String × Pier) :=
  [ ("Pier 1", { lat := 39.006685786202446, lon := -76.4030718781911, water_depth_ft := 25 }),
    ("Pier 2", { lat := 39.0047100341694, lon := -76.40187242168875, water_depth_ft := 30 }),
    ("Pier 3", { lat := 39.000576682498846, lon := -76.39931260304236, water_depth_ft := 35 }),
    ("Pier 4", { lat := 38.99934618768639, lon := -76.3984344824108, water_depth_ft := 40 }),
    ("Pier 5", { lat := 38.996661450758054, lon := -76.39490712081833, water_depth_ft := 45 }),
    ("Pier 6", { lat := 38.99589831874505, lon := -76.39300195801506, water_depth_ft := 50 }),
    ("Pier 7 (Anchorage)", { lat := 38.994722737169305, lon := -76.38834446411663, water_depth_ft := 55 }),
    ("Pier 8", { lat := 38.994486462598395, lon := -76.38712588978133, water_depth_ft := 60 }),
    ("Pier 9 (Tower)", { lat := 38.993873926517374, lon := -76.38489943454631, water_depth_ft := 100 }),
    ("Pier 10 (Tower)", { lat := 38.99258665186238, lon := -76.37951868887593, water_depth_ft := 100 }),
    ("Pier 11", { lat := 38.992082059562, lon := -76.37728342385851, water_depth_ft := 60 }),
    ("Pier 12 (Anchorage)", { lat := 38.99169243968722, lon := -76.3757818114165, water_depth_ft := 55 }),
    ("Pier 13", { lat := 38.991308218724654, lon := -76.37390965718366, water_depth_ft := 50 }),
    ("Pier 14", { lat := 38.990858413902934, lon := -76.3718974636084, water_depth_ft := 45 }),
    ("Pier 15", { lat := 38.990462929792685, lon := -76.37027880005854, water_depth_ft := 40 }),
    ("Pier 16", { lat := 38.99001516265438, lon := -76.36827088727092, water_depth_ft := 35 }),
    ("Pier 17", { lat := 38.989649864735526, lon := -76.36661155933896, water_depth_ft := 30 }),
    ("Pier 18", { lat := 38.988335645418, lon := -76.36151863357634, water_depth_ft := 25 }),
    ("Pier 19", { lat := 38.98694086994944, lon := -76.35556555408714, water_depth_ft := 20 }),
    ("Pier 20", { lat := 38.98465161655931, lon := -76.34570149047524, water_depth_ft := 15 }) ]

/-- `haversine_distance`: great-circle distance in nautical miles.
`math.radians x = x * pi / 180`, `math.asin = Real.arcsin`. -/
noncomputable def haversine_distance (lat1 lon1 lat2 lon2 : ℝ) : ℝ :=
  let R : ℝ := 3440.065
  let lat1r := lat1 * (Real.pi / 180)
  let lon1r := lon1 * (Real.pi / 180)
  let lat2r := lat2 * (Real.pi / 180)
  let lon2r := lon2 * (Real.pi / 180)
  let dlat := lat2r - lat1r
  let dlon := lon2r - lon1r
  let a := Real.sin (dlat / 2) ^ 2
    + Real.cos lat1r * Real.cos lat2r * Real.sin (dlon / 2) ^ 2
  let c := 2 * Real.arcsin (Real.sqrt a)
  R * c

/-- Python float modulo for a positive divisor: result has the sign of the
divisor, `a % b = a - b * floor (a / b)`. -/
noncomputable def pyFloatMod (a b : ℝ) : ℝ := a - b * (⌊a / b⌋ : ℤ)

/-- `math.atan2 y x`: the angle of the point `(x, y)`, in `(-pi, pi]`,
which is exactly `Complex.arg (x + y i)`. -/
noncomputable def atan2 (y x : ℝ) : ℝ := Complex.arg ⟨x, y⟩

/-- `calculate_bearing`: initial bearing from point 1 to point 2, in
degrees normalized to `[0, 360)`.  The source calls `math.atan2(x, y)`,
so `x` is the first (ordinate) argument. -/
noncomputable def calculate_bearing (lat1 lon1 lat2 lon2 : ℝ) : ℝ :=
  let lat1r := lat1 * (Real.pi / 180)
  let lat2r := lat2 * (Real.pi / 180)
  let lon1r := lon1 * (Real.pi / 180)
  let lon2r := lon2 * (Real.pi / 180)
  let dlon := lon2r - lon1r
  let x := Real.sin dlon * Real.cos lat2r
  let y := Real.cos lat1r * Real.sin lat2r
    - Real.sin lat1r * Real.cos lat2r * Real.cos dlon
  let bearing := atan2 x y
  let bearingDeg := bearing * (180 / Real.pi)
  pyFloatMod (bearingDeg + 360) 360

/-- Python substring containment `needle in hay` on strings. -/
def strContains (hay needle : String) : Bool :=
  decide (List.IsInfix needle.toList hay.toList)

/-- Python `str.lower`, as a character-by-character map. -/
def str_lower (s : String) : String := String.mk (s.toList.map Char.toLower)

/-- `estimate_vessel_mass`: displacement in metric tons from ship type and
length.  An absent or non-positive length is replaced by the default 50 m;
the ship-type string is lowercased and matched against category keywords in
the order of the source if-chain; exponents are real powers (`rpow`). -/
noncomputable def estimate_vessel_mass (ship_type : String) (length_m : Option ℚ) : ℝ :=
  let L : ℝ :=
    match length_m with
    | none => 50
    | some l => if l ≤ 0 then 50 else (l : ℝ)
  let s := str_lower ship_type
  if strContains s "tanker" || strContains s "crude" then 0.5 * L ^ (2.5 : ℝ)
  else if strContains s "container" || strContains s "cargo" then 0.4 * L ^ (2.4 : ℝ)
  else if strContains s "bulk" then 0.45 * L ^ (2.45 : ℝ)
  else if strContains s "passenger" || strContains s "cruise" then 0.25 * L ^ (2.3 : ℝ)
  else if strContains s "tug" then 0.6 * L ^ (2.2 : ℝ)
  else if strContains s "fishing" then 0.3 * L ^ (2.1 : ℝ)
  else 0.35 * L ^ (2.3 : ℝ)

/-- `calculate_aashto_impact_force`: simplified AASHTO impact force in MN. -/
noncomputable def calculate_aashto_impact_force (vessel_mass_tonnes velocity_knots : ℝ) : ℝ :=
  let mass_kg := vessel_mass_tonnes * 1000
  let velocity_ms := velocity_knots * 0.5144
  let KE := 0.5 * mass_kg * velocity_ms ^ 2
  let deformation_distance : ℝ := 1.5
  let impact_force := KE / deformation_distance
  impact_force / 1000000

/-- AIS dimension record: offsets A and B from the reference point. -/
structure Dimension where
  A : Option ℚ
  B : Option ℚ
deriving DecidableEq, Repr

/-- `get_vessel_length`: sum of the two offsets when positive, else absent.
A missing or non-dict `Dimension` value is `none`; a falsy offset
(`absent` or 0, via `or 0` in the source) contributes 0. -/
def get_vessel_length (dimension_data : Option Dimension) : Option ℚ :=
  match dimension_data with
  | some d =>
    let a := d.A.getD 0
    let b := d.B.getD 0
    let length := a + b
    if length > 0 then some length else none
  | none => none

/-- One AIS-like vessel snapshot.  `none` marks a field that is missing
(or present with a falsy value where the source coalesces with `or`). -/
structure VesselReport where
  latitude : Option ℚ
  longitude : Option ℚ
  sog : Option ℚ
  cog : Option ℚ
  ship_type : Option String
  dimension : Option Dimension
  name : Option String
  mmsi : Option ℕ
deriving DecidableEq, Repr

/-- The derived analysis record for one vessel, mirroring the dict returned
by `analyze_vessel_threat`.  `time_to_pier_min = none` stands for the
float-infinity sentinel produced at zero speed. -/
structure ThreatAnalysis where
  vessel_name : String
  mmsi : Option ℕ
  ship_type : String
  length_m : Option ℚ
  mass_tonnes : ℝ
  speed_knots : ℚ
  course : ℚ
  closest_pier : String
  distance_nm : ℝ
  bearing_to_pier : ℝ
  is_approaching : Bool
  time_to_pier_min : Option ℝ
  impact_force_MN : ℝ
  threat_level : ThreatLevel
  threat_score : ℕ

/-- The closest-pier loop of `analyze_vessel_threat`: scan the list keeping
the strictly smallest distance seen so far.  The accumulator `none` stands
for the initial state `min_distance = inf, closest_pier = None`; since
every distance is a (finite) real, `dist < inf` always holds there. -/
noncomputable def findClosest {α : Type} (d : α → ℝ) :
    List α → Option (α × ℝ) → Option (α × ℝ)
  | [], acc => acc
  | x :: xs, acc =>
    match acc with
    | none => findClosest d xs (some (x, d x))
    | some (y, dy) =>
      if d x < dy then findClosest d xs (some (x, d x))
      else findClosest d xs (some (y, dy))

/-- Haversine distance from a vessel position to one named pier. -/
noncomputable def pierDistance (lat lon : ℚ) (p : String × Pier) : ℝ :=
  haversine_distance (lat : ℝ) (lon : ℝ) (p.2.lat : ℝ) (p.2.lon : ℝ)

/-- `analyze_vessel_threat`: full threat analysis of one vessel report
against a pier table.  Returns `none` when latitude or longitude is
missing.  (For an empty pier table the source raises a `KeyError` at
`piers[closest_pier]`; that branch is likewise mapped to `none` here and is
unreachable for the non-empty default table.) -/
noncomputable def analyze_vessel_threat (vessel : VesselReport)
    (piers : List (String × Pier)) : Option ThreatAnalysis :=
  match vessel.latitude, vessel.longitude with
  | some lat, some lon =>
    let sog := vessel.sog.getD 0
    let cog := vessel.cog.getD 0
    let ship_type := vessel.ship_type.getD "Unknown"
    let length_m := get_vessel_length vessel.dimension
    let mass_tonnes := estimate_vessel_mass ship_type length_m
    match findClosest (pierDistance lat lon) piers none with
    | none => none
    | some (closest, min_distance) =>
      let bearing_to_pier :=
        calculate_bearing (lat : ℝ) (lon : ℝ) ((closest.2).lat : ℝ) ((closest.2).lon : ℝ)
      let bearing_diff0 := |(cog : ℝ) - bearing_to_pier|
      let bearing_diff := if bearing_diff0 > 180 then 360 - bearing_diff0 else bearing_diff0
      let is_approaching : Bool := bearing_diff < 30
      let impact_force := calculate_aashto_impact_force mass_tonnes (sog : ℝ)
      let time_to_pier_min : Option ℝ :=
        if sog > 0 then some (min_distance / (sog : ℝ) * 60) else none
      let score := threatScore min_distance (sog : ℝ) is_approaching mass_tonnes
      some
        { vessel_name := vessel.name.getD "Unknown"
          mmsi := vessel.mmsi
          ship_type := ship_type
          length_m := length_m
          mass_tonnes := mass_tonnes
          speed_knots := sog
          course := cog
          closest_pier := closest.1
          distance_nm := min_distance
          bearing_to_pier := bearing_to_pier
          is_approaching := is_approaching
          time_to_pier_min := time_to_pier_min
          impact_force_MN := impact_force
          threat_level := threatLevelOfScore score
          threat_score := score }
  | _, _ => none

/-- The descending-by-score comparison used when sorting analyses
(`key=threat_score, reverse=True`). -/
def scoreDesc (a b : ThreatAnalysis) : Bool :=
  decide (b.threat_score ≤ a.threat_score)

/-- `analyze_all_vessels`: analyze every report with the default pier
table, drop the `none` results, and sort by descending threat score with a
stable sort (Python `list.sort` is stable; `List.mergeSort` is stable). -/
noncomputable def analyze_all_vessels (vessels_data : List VesselReport) :
    List ThreatAnalysis :=
  let analyses := vessels_data.filterMap
    (fun vessel => analyze_vessel_threat vessel CHESAPEAKE_BAY_BRIDGE_EASTBOUND_PIERS)
  analyses.mergeSort scoreDesc

/-- Aggregate summary over a collection of analyses. -/
structure FleetSummary where
  total_vessels : ℕ
  critical : ℕ
  high : ℕ
  medium : ℕ
  low : ℕ
  approaching_count : ℕ
  max_impact_force : ℝ

/-- The all-zero summary returned for an empty collection. -/
def zeroSummary : FleetSummary :=
  { total_vessels := 0, critical := 0, high := 0, medium := 0, low := 0,
    approaching_count := 0, max_impact_force := 0 }

/-- `get_threat_summary`: counts per level, approaching count, and the
maximum impact force (Python `max` over a non-empty list is a left fold of
`max` over the tail starting from the head). -/
noncomputable def get_threat_summary (analyses : List ThreatAnalysis) : FleetSummary :=
  match analyses with
  | [] => zeroSummary
  | a0 :: rest =>
    { total_vessels := (a0 :: rest).length
      critical := (a0 :: rest).countP (fun a => decide (a.threat_level = ThreatLevel.CRITICAL))
      high := (a0 :: rest).countP (fun a => decide (a.threat_level = ThreatLevel.HIGH))
      medium := (a0 :: rest).countP (fun a => decide (a.threat_level = ThreatLevel.MEDIUM))
      low := (a0 :: rest).countP (fun a => decide (a.threat_level = ThreatLevel.LOW))
      approaching_count := (a0 :: rest).countP (fun a => a.is_approaching)
      max_impact_force := (rest.map (fun a => a.impact_force_MN)).foldl max a0.impact_force_MN }

/-- A concrete vessel report, used to instantiate theorems with
hypotheses at a specific input. -/
def sampleVessel : VesselReport :=
  { latitude := some 39, longitude := some (-76.4), sog := some 10,
    cog := some 90, ship_type := some "Container Ship",
    dimension := some { A := some 100, B := some 50 },
    name := some "Test Vessel", mmsi := some 123456789 }

/-- A concrete one-pier table, used to instantiate theorems with
hypotheses at a specific input. -/
def samplePiers : List (String × Pier) :=
  [("Pier 1", { lat := 39, lon := -76.4, water_depth_ft := 25 })]

theorem threatScore_eq_sum (d s : ℝ) (app : Bool) (m : ℝ) :
    threatScore d s app m
      = distanceFactor d + speedFactor s + headingFactor app + massFactor m := by
  have hd : ∀ k : ℕ,
      (if d < 0.5 then k + 40 else if d < 1.0 then k + 25
        else if d < 2.0 then k + 10 else k) = k + distanceFactor d := by
    intro k; simp only [distanceFactor]; split_ifs <;> omega
  have hs : ∀ k : ℕ,
      (if s > 12 then k + 30 else if s > 8 then k + 20
        else if s > 4 then k + 10 else k) = k + speedFactor s := by
    intro k; simp only [speedFactor]; split_ifs <;> omega
  have hh : ∀ k : ℕ, (if app then k + 20 else k) = k + headingFactor app := by
    intro k; cases app <;> simp [headingFactor]
  have hm : ∀ k : ℕ,
      (if m > 50000 then k + 10 else if m > 10000 then k + 5 else k)
        = k + massFactor m := by
    intro k; simp only [massFactor]; split_ifs <;> omega
  simp only [threatScore, hd, hs, hh, hm]
  omega

theorem distanceFactor_le (d : ℝ) : distanceFactor d ≤ 40 := by
  simp only [distanceFactor]; split_ifs <;> omega

theorem speedFactor_le (s : ℝ) : speedFactor s ≤ 30 := by
  simp only [speedFactor]; split_ifs <;> omega

theorem headingFactor_le (b : Bool) : headingFactor b ≤ 20 := by
  cases b <;> simp [headingFactor]

theorem massFactor_le (m : ℝ) : massFactor m ≤ 10 := by
  simp only [massFactor]; split_ifs <;> omega

theorem threatScore_le_100 (d s : ℝ) (app : Bool) (m : ℝ) :
    threatScore d s app m ≤ 100 := by
  rw [threatScore_eq_sum]
  have h1 := distanceFactor_le d
  have h2 := speedFactor_le s
  have h3 := headingFactor_le app
  have h4 := massFactor_le m
  omega

theorem distanceFactor_anti {d1 d2 : ℝ} (h : d2 ≤ d1) :
    distanceFactor d1 ≤ distanceFactor d2 := by
  simp only [distanceFactor]
  split_ifs <;> first | omega | linarith

theorem speedFactor_mono {s1 s2 : ℝ} (h : s1 ≤ s2) :
    speedFactor s1 ≤ speedFactor s2 := by
  simp only [speedFactor]
  split_ifs <;> first | omega | linarith

theorem headingFactor_mono {a1 a2 : Bool} (h : a1 = true → a2 = true) :
    headingFactor a1 ≤ headingFactor a2 := by
  cases a1 <;> cases a2 <;> simp_all [headingFactor]

theorem massFactor_mono {m1 m2 : ℝ} (h : m1 ≤ m2) :
    massFactor m1 ≤ massFactor m2 := by
  simp only [massFactor]
  split_ifs <;> first | omega | linarith

theorem findClosest_go {α : Type} (d : α → ℝ) :
    ∀ (xs : List α) (y : α) (dy : ℝ),
      ∃ z dz, findClosest d xs (some (y, dy)) = some (z, dz) ∧
        dz ≤ dy ∧ (∀ q ∈ xs, dz ≤ d q) ∧
        ((z = y ∧ dz = dy) ∨
          ∃ pre post, xs = pre ++ z :: post ∧ d z = dz ∧ dz < dy ∧
            ∀ q ∈ pre, dz < d q)
  | [], y, dy => ⟨y, dy, rfl, le_refl _, by simp, Or.inl ⟨rfl, rfl⟩⟩
  | x :: xs, y, dy => by
    by_cases h : d x < dy
    · obtain ⟨z, dz, hres, hle, hmin, hcase⟩ := findClosest_go d xs x (d x)
      refine ⟨z, dz, ?_, hle.trans h.le, ?_, ?_⟩
      · simpa [findClosest, if_pos h] using hres
      · intro q hq
        rcases List.mem_cons.mp hq with rfl | hq
        · exact hle
        · exact hmin q hq
      · rcases hcase with ⟨rfl, rfl⟩ | ⟨pre, post, hxs, hdz, hlt, hpre⟩
        · exact Or.inr ⟨[], xs, by simp, rfl, h, by simp⟩
        · refine Or.inr ⟨x :: pre, post, by simp [hxs], hdz, hlt.trans h, ?_⟩
          intro q hq
          rcases List.mem_cons.mp hq with rfl | hq
          · exact hlt
          · exact hpre q hq
    · obtain ⟨z, dz, hres, hle, hmin, hcase⟩ := findClosest_go d xs y dy
      refine ⟨z, dz, ?_, hle, ?_, ?_⟩
      · simpa [findClosest, if_neg h] using hres
      · intro q hq
        rcases List.mem_cons.mp hq with rfl | hq
        · exact hle.trans (not_lt.mp h)
        · exact hmin q hq
      · rcases hcase with hz | ⟨pre, post, hxs, hdz, hlt, hpre⟩
        · exact Or.inl hz
        · refine Or.inr ⟨x :: pre, post, by simp [hxs], hdz, hlt, ?_⟩
          intro q hq
          rcases List.mem_cons.mp hq with rfl | hq
          · exact hlt.trans_le (not_lt.mp h)
          · exact hpre q hq

theorem findClosest_ne_nil {α : Type} (d : α → ℝ) (xs : List α) (h : xs ≠ []) :
    ∃ z dz, findClosest d xs none = some (z, dz) ∧ d z = dz ∧
      (∀ q ∈ xs, dz ≤ d q) ∧
      ∃ pre post, xs = pre ++ z :: post ∧ ∀ q ∈ pre, dz < d q := by
  match xs, h with
  | x :: xs, _ =>
    obtain ⟨z, dz, hres, hle, hmin, hcase⟩ := findClosest_go d xs x (d x)
    have hstep : findClosest d (x :: xs) none = findClosest d xs (some (x, d x)) := by
      simp [findClosest]
    rcases hcase with ⟨hz, hdz0⟩ | ⟨pre, post, hxs, hdz, hlt, hpre⟩
    · refine ⟨z, dz, hstep.trans hres, ?_, ?_, [], xs, ?_, by simp⟩
      · rw [hz, hdz0]
      · intro q hq
        rcases List.mem_cons.mp hq with rfl | hq
        · exact hdz0.le
        · exact hmin q hq
      · simp [hz]
    · refine ⟨z, dz, hstep.trans hres, hdz, ?_, x :: pre, post, by simp [hxs], ?_⟩
      · intro q hq
        rcases List.mem_cons.mp hq with rfl | hq
        · exact hle
        · exact hmin q hq
      · intro q hq
        rcases List.mem_cons.mp hq with rfl | hq
        · exact hlt
        · exact hpre q hq

theorem analyze_spec (v : VesselReport) (piers : List (String × Pier))
    (a : ThreatAnalysis) (h : analyze_vessel_threat v piers = some a) :
    ∃ lat lon z, v.latitude = some lat ∧ v.longitude = some lon ∧
      findClosest (pierDistance lat lon) piers none = some (z, a.distance_nm) ∧
      a.closest_pier = z.1 ∧
      a.speed_knots = v.sog.getD 0 ∧
      a.mass_tonnes = estimate_vessel_mass (v.ship_type.getD "Unknown")
        (get_vessel_length v.dimension) ∧
      a.threat_score = threatScore a.distance_nm (a.speed_knots : ℝ)
        a.is_approaching a.mass_tonnes ∧
      a.threat_level = threatLevelOfScore a.threat_score := by
  cases hlat : v.latitude with
  | none =>
    simp only [analyze_vessel_threat, hlat] at h
    exact Option.noConfusion h
  | some lat =>
    cases hlon : v.longitude with
    | none =>
      simp only [analyze_vessel_threat, hlat, hlon] at h
      exact Option.noConfusion h
    | some lon =>
      simp only [analyze_vessel_threat, hlat, hlon] at h
      rcases hfc : findClosest (pierDistance lat lon) piers none with _ | ⟨closest, min_distance⟩
      · rw [hfc] at h
        simp at h
      · rw [hfc] at h
        simp only [Option.some.injEq] at h
        subst h
        exact ⟨lat, lon, closest, rfl, rfl, hfc, rfl, rfl, rfl, rfl, rfl⟩

theorem analyze_none_iff (v : VesselReport) (piers : List (String × Pier))
    (hp : piers ≠ []) :
    analyze_vessel_threat v piers = none ↔
      v.latitude = none ∨ v.longitude = none := by
  constructor
  · intro h
    by_contra hcon
    push_neg at hcon
    obtain ⟨h1, h2⟩ := hcon
    obtain ⟨lat, hlat⟩ := Option.ne_none_iff_exists.mp h1
    obtain ⟨lon, hlon⟩ := Option.ne_none_iff_exists.mp h2
    obtain ⟨z, dz, hres, -⟩ := findClosest_ne_nil (pierDistance lat lon) piers hp
    simp only [analyze_vessel_threat, hlat.symm, hlon.symm, hres] at h
    exact Option.noConfusion h
  · intro h
    rcases h with h | h
    · simp only [analyze_vessel_threat, h]
    · cases hlat : v.latitude with
      | none => simp only [analyze_vessel_threat, hlat]
      | some lat => simp only [analyze_vessel_threat, hlat, h]

/-- C1: the threat level of every produced analysis is a deterministic
function of the threat score alone, through the thresholds
score >= 60 CRITICAL, >= 40 HIGH, >= 20 MEDIUM, else LOW; the level is
monotone in the score, and score 59 gives HIGH, 60 CRITICAL, 39 MEDIUM,
19 LOW. -/
theorem C1_threat_level_thresholds :
    (∀ s t : ℕ, s ≤ t → levelRank (threatLevelOfScore s) ≤ levelRank (threatLevelOfScore t))
    ∧ threatLevelOfScore 59 = ThreatLevel.HIGH
    ∧ threatLevelOfScore 60 = ThreatLevel.CRITICAL
    ∧ threatLevelOfScore 39 = ThreatLevel.MEDIUM
    ∧ threatLevelOfScore 19 = ThreatLevel.LOW
    ∧ ∀ (v : VesselReport) (piers : List (String × Pier)),
        (analyze_vessel_threat v piers).elim True
          (fun a => a.threat_level = threatLevelOfScore a.threat_score) := by
  refine ⟨?_, by decide, by decide, by decide, by decide, ?_⟩
  · intro s t h
    simp only [threatLevelOfScore]
    split_ifs <;> simp [levelRank] <;> omega
  · intro v piers
    rcases hA : analyze_vessel_threat v piers with _ | a
    · exact trivial
    · obtain ⟨-, -, -, -, -, -, -, -, -, -, hlv⟩ := analyze_spec v piers a hA
      exact hlv

/-- C2: the threat score is the sum of four independently evaluated
factors (distance, speed, heading, mass) with the documented weights, with
no interaction terms, and every produced analysis carries exactly that sum
of the factors of its own recorded fields. -/
theorem C2_additive_factors :
    (∀ (d s m : ℝ) (app : Bool),
        threatScore d s app m
          = distanceFactor d + speedFactor s + headingFactor app + massFactor m)
    ∧ ∀ (v : VesselReport) (piers : List (String × Pier)),
        (analyze_vessel_threat v piers).elim True
          (fun a => a.threat_score
            = distanceFactor a.distance_nm + speedFactor (a.speed_knots : ℝ)
              + headingFactor a.is_approaching + massFactor a.mass_tonnes) := by
  refine ⟨fun d s m app => threatScore_eq_sum d s app m, ?_⟩
  intro v piers
  rcases hA : analyze_vessel_threat v piers with _ | a
  · exact trivial
  · obtain ⟨-, -, -, -, -, -, -, -, -, hsc, -⟩ := analyze_spec v piers a hA
    simp only [Option.elim]
    rw [hsc, threatScore_eq_sum]

/-- C5: the threat score is monotone non-decreasing in each
threat-contributing input: decreasing the distance, increasing the speed,
turning the approaching flag on, or increasing the mass never decreases
the score. -/
theorem C5_score_monotone (d1 d2 s1 s2 m1 m2 : ℝ) (a1 a2 : Bool)
    (hd : d2 ≤ d1) (hs : s1 ≤ s2) (ha : a1 = true → a2 = true) (hm : m1 ≤ m2) :
    threatScore d1 s1 a1 m1 ≤ threatScore d2 s2 a2 m2 := by
  rw [threatScore_eq_sum, threatScore_eq_sum]
  have h1 := distanceFactor_anti hd
  have h2 := speedFactor_mono hs
  have h3 := headingFactor_mono ha
  have h4 := massFactor_mono hm
  omega

theorem C5_score_monotone_witness :
    ((0 : ℝ) ≤ 0) ∧ (false = true → true = true)
    ∧ threatScore 0 0 false 0 ≤ threatScore 0 0 true 0 :=
  ⟨le_refl 0, fun _ => rfl,
    C5_score_monotone 0 0 0 0 0 0 false true (le_refl 0) (le_refl 0)
      (fun _ => rfl) (le_refl 0)⟩

/-- C10: the threat score of every produced analysis lies between 0 and
100 inclusive: the four factor contributions are bounded by 40, 30, 20 and
10, and the score is their sum. -/
theorem C10_score_bounds :
    (∀ (d s m : ℝ) (app : Bool),
        0 ≤ threatScore d s app m ∧ threatScore d s app m ≤ 100)
    ∧ ∀ (v : VesselReport) (piers : List (String × Pier)),
        (analyze_vessel_threat v piers).elim True
          (fun a => 0 ≤ a.threat_score ∧ a.threat_score ≤ 100) := by
  refine ⟨fun d s m app => ⟨Nat.zero_le _, threatScore_le_100 d s app m⟩, ?_⟩
  intro v piers
  rcases hA : analyze_vessel_threat v piers with _ | a
  · exact trivial
  · obtain ⟨-, -, -, -, -, -, -, -, -, hsc, -⟩ := analyze_spec v piers a hA
    simp only [Option.elim]
    rw [hsc]
    exact ⟨Nat.zero_le _, threatScore_le_100 _ _ _ _⟩

/-- C3: for every report with both coordinates present and every non-empty
pier table, the analysis produced reports as `distance_nm` the minimum
haversine distance to any pier, and as `closest_pier` the first pier in
iteration order achieving that minimum (every strictly earlier pier is
strictly farther). -/
theorem C3_distance_is_min (v : VesselReport) (lat lon : ℚ)
    (hlat : v.latitude = some lat) (hlon : v.longitude = some lon)
    (piers : List (String × Pier)) (hp : piers ≠ []) :
    ∃ a p, analyze_vessel_threat v piers = some a ∧
      a.closest_pier = p.1 ∧ pierDistance lat lon p = a.distance_nm ∧
      (∀ q ∈ piers, a.distance_nm ≤ pierDistance lat lon q) ∧
      ∃ pre post, piers = pre ++ p :: post ∧
        ∀ q ∈ pre, a.distance_nm < pierDistance lat lon q := by
  obtain ⟨z, dz, hres, hdz, hmin, pre, post, hsplit, hpre⟩ :=
    findClosest_ne_nil (pierDistance lat lon) piers hp
  rcases hA : analyze_vessel_threat v piers with _ | a
  · rw [analyze_none_iff v piers hp] at hA
    rcases hA with h | h
    · rw [hlat] at h; exact Option.noConfusion h
    · rw [hlon] at h; exact Option.noConfusion h
  · obtain ⟨lat2, lon2, z2, hlat2, hlon2, hfc2, hcp, -, -, -, -⟩ :=
    analyze_spec v piers a hA
    rw [hlat] at hlat2
    rw [hlon] at hlon2
    obtain rfl : lat = lat2 := Option.some.inj hlat2
    obtain rfl : lon = lon2 := Option.some.inj hlon2
    rw [hres] at hfc2
    obtain ⟨hz, hdist⟩ := Prod.mk.inj (Option.some.inj hfc2)
    refine ⟨a, z, rfl, ?_, ?_, ?_, pre, post, hsplit, ?_⟩
    · rw [hcp, ← hz]
    · rw [hdz, hdist]
    · intro q hq
      rw [← hdist]
      exact hmin q hq
    · intro q hq
      rw [← hdist]
      exact hpre q hq

theorem C3_distance_is_min_witness :
    sampleVessel.latitude = some 39 ∧ sampleVessel.longitude = some (-76.4)
    ∧ samplePiers ≠ []
    ∧ ∃ a p, analyze_vessel_threat sampleVessel samplePiers = some a ∧
        a.closest_pier = p.1 ∧ pierDistance 39 (-76.4) p = a.distance_nm ∧
        (∀ q ∈ samplePiers, a.distance_nm ≤ pierDistance 39 (-76.4) q) ∧
        ∃ pre post, samplePiers = pre ++ p :: post ∧
          ∀ q ∈ pre, a.distance_nm < pierDistance 39 (-76.4) q :=
  ⟨rfl, rfl, List.cons_ne_nil _ _,
    C3_distance_is_min sampleVessel 39 (-76.4) rfl rfl samplePiers
      (List.cons_ne_nil _ _)⟩

theorem piers_ne_nil : CHESAPEAKE_BAY_BRIDGE_EASTBOUND_PIERS ≠ [] :=
  fun h => List.noConfusion h

theorem length_filterMap_countP {α β : Type} (f : α → Option β) :
    ∀ l : List α, (l.filterMap f).length = l.countP (fun x => (f x).isSome)
  | [] => rfl
  | x :: l => by
    rcases hfx : f x with _ | b
    · simp [List.filterMap_cons, hfx, List.countP_cons,
        length_filterMap_countP f l]
    · simp [List.filterMap_cons, hfx, List.countP_cons,
        length_filterMap_countP f l]

/-- C4: `analyze_vessel_threat` (with the non-empty default pier table)
returns `none` exactly when latitude or longitude is missing; the fleet
analysis contains one entry per report with both coordinates present, and
everything in it comes from a successfully analyzed report. -/
theorem C4_absent_iff_missing_latlon :
    (∀ v : VesselReport,
        analyze_vessel_threat v CHESAPEAKE_BAY_BRIDGE_EASTBOUND_PIERS = none
          ↔ v.latitude = none ∨ v.longitude = none)
    ∧ (∀ reports : List VesselReport,
        (analyze_all_vessels reports).length
          = reports.countP (fun r => r.latitude.isSome && r.longitude.isSome))
    ∧ ∀ (reports : List VesselReport) (a : ThreatAnalysis),
        a ∈ analyze_all_vessels reports →
          ∃ r ∈ reports,
            analyze_vessel_threat r CHESAPEAKE_BAY_BRIDGE_EASTBOUND_PIERS = some a := by
  refine ⟨fun v => analyze_none_iff v _ piers_ne_nil, ?_, ?_⟩
  · intro reports
    simp only [analyze_all_vessels]
    rw [List.length_mergeSort, length_filterMap_countP]
    apply List.countP_congr
    intro r hr
    rcases h1 : r.latitude with _ | lat
    · have : analyze_vessel_threat r CHESAPEAKE_BAY_BRIDGE_EASTBOUND_PIERS = none :=
        (analyze_none_iff r _ piers_ne_nil).mpr (Or.inl h1)
      simp [this, h1]
    · rcases h2 : r.longitude with _ | lon
      · have : analyze_vessel_threat r CHESAPEAKE_BAY_BRIDGE_EASTBOUND_PIERS = none :=
          (analyze_none_iff r _ piers_ne_nil).mpr (Or.inr h2)
        simp [this, h1, h2]
      · have hne : analyze_vessel_threat r CHESAPEAKE_BAY_BRIDGE_EASTBOUND_PIERS ≠ none := by
          intro hcon
          rcases (analyze_none_iff r _ piers_ne_nil).mp hcon with h | h
          · rw [h1] at h; exact Option.noConfusion h
          · rw [h2] at h; exact Option.noConfusion h
        simp [Option.isSome_iff_ne_none, hne, h1, h2]
  · intro reports a ha
    simp only [analyze_all_vessels, List.mem_mergeSort] at ha
    exact List.mem_filterMap.mp ha

theorem scoreDesc_trans (a b c : ThreatAnalysis)
    (h1 : scoreDesc a b) (h2 : scoreDesc b c) : scoreDesc a c := by
  simp only [scoreDesc, decide_eq_true_eq] at h1 h2 ⊢
  omega

theorem scoreDesc_total (a b : ThreatAnalysis) : scoreDesc a b || scoreDesc b a := by
  simp only [scoreDesc]
  rcases Nat.le_total b.threat_score a.threat_score with h | h <;> simp [h]

/-- C7: the fleet analysis is, as a multiset, exactly the successful
per-vessel analyses in report order; it is sorted by non-increasing threat
score; and it is stable: restricted to any fixed score, it equals the
unsorted sequence of analyses restricted to that score (original relative
order preserved among equal scores). -/
theorem C7_fleet_sorted_stable (reports : List VesselReport) :
    List.Perm (analyze_all_vessels reports)
      (reports.filterMap
        (fun v => analyze_vessel_threat v CHESAPEAKE_BAY_BRIDGE_EASTBOUND_PIERS))
    ∧ (analyze_all_vessels reports).Pairwise
        (fun a b => b.threat_score ≤ a.threat_score)
    ∧ ∀ s : ℕ,
        (analyze_all_vessels reports).filter (fun a => decide (a.threat_score = s))
          = (reports.filterMap
              (fun v => analyze_vessel_threat v CHESAPEAKE_BAY_BRIDGE_EASTBOUND_PIERS)).filter
              (fun a => decide (a.threat_score = s)) := by
  refine ⟨?_, ?_, ?_⟩
  · simp only [analyze_all_vessels]
    exact List.mergeSort_perm _ scoreDesc
  · simp only [analyze_all_vessels]
    have h := List.sorted_mergeSort scoreDesc_trans scoreDesc_total
      (reports.filterMap
        (fun v => analyze_vessel_threat v CHESAPEAKE_BAY_BRIDGE_EASTBOUND_PIERS))
    exact h.imp (fun hab => by
      simpa [scoreDesc, decide_eq_true_eq] using hab)
  · intro s
    simp only [analyze_all_vessels]
    set l := reports.filterMap
      (fun v => analyze_vessel_threat v CHESAPEAKE_BAY_BRIDGE_EASTBOUND_PIERS) with hl
    set p := fun a : ThreatAnalysis => decide (a.threat_score = s) with hpdef
    have hall : ∀ x ∈ l.filter p, x.threat_score = s := by
      intro x hx
      have := List.of_mem_filter hx
      simpa [hpdef] using this
    have hpair : (l.filter p).Pairwise (fun a b => scoreDesc a b) := by
      apply List.pairwise_of_forall_mem_list
      intro a ha b hb
      simp only [scoreDesc, decide_eq_true_eq]
      rw [hall a ha, hall b hb]
    have hsub : List.Sublist (l.filter p) (l.mergeSort scoreDesc) :=
      List.sublist_mergeSort scoreDesc_trans scoreDesc_total hpair
        (List.filter_sublist l)
    have hsub2 : List.Sublist (l.filter p) ((l.mergeSort scoreDesc).filter p) := by
      have h2 := List.Sublist.filter p hsub
      have heq : (l.filter p).filter p = l.filter p :=
        List.filter_eq_self.mpr (fun x hx => List.of_mem_filter hx)
      rwa [heq] at h2
    have hlen : ((l.mergeSort scoreDesc).filter p).length = (l.filter p).length :=
      ((List.mergeSort_perm l scoreDesc).filter p).length_eq
    exact (hsub2.eq_of_length hlen.symm).symm

/-- C8: the summary of an empty collection of analyses is the all-zero
summary, and the fleet analysis of an empty report list is empty, so its
summary is also the zero summary. -/
theorem C8_empty_summary :
    get_threat_summary [] = zeroSummary
    ∧ analyze_all_vessels [] = []
    ∧ get_threat_summary (analyze_all_vessels []) = zeroSummary := by
  have h : analyze_all_vessels [] = [] := by
    simp [analyze_all_vessels]
  exact ⟨rfl, h, by rw [h]; exact rfl⟩

theorem countLevels (analyses : List ThreatAnalysis) :
    analyses.countP (fun a => decide (a.threat_level = ThreatLevel.CRITICAL))
    + analyses.countP (fun a => decide (a.threat_level = ThreatLevel.HIGH))
    + analyses.countP (fun a => decide (a.threat_level = ThreatLevel.MEDIUM))
    + analyses.countP (fun a => decide (a.threat_level = ThreatLevel.LOW))
    = analyses.length := by
  induction analyses with
  | nil => rfl
  | cons a rest ih =>
    simp only [List.countP_cons, List.length_cons]
    cases h : a.threat_level <;> simp [h] <;> omega

/-- C9: in every fleet summary the per-level counts partition the total:
critical + high + medium + low = total_vessels, both for an arbitrary
collection of analyses and for the output of the fleet analyzer. -/
theorem C9_counts_partition :
    (∀ analyses : List ThreatAnalysis,
        (get_threat_summary analyses).critical + (get_threat_summary analyses).high
          + (get_threat_summary analyses).medium + (get_threat_summary analyses).low
          = (get_threat_summary analyses).total_vessels)
    ∧ ∀ reports : List VesselReport,
        (get_threat_summary (analyze_all_vessels reports)).critical
          + (get_threat_summary (analyze_all_vessels reports)).high
          + (get_threat_summary (analyze_all_vessels reports)).medium
          + (get_threat_summary (analyze_all_vessels reports)).low
          = (get_threat_summary (analyze_all_vessels reports)).total_vessels := by
  have hmain : ∀ analyses : List ThreatAnalysis,
      (get_threat_summary analyses).critical + (get_threat_summary analyses).high
        + (get_threat_summary analyses).medium + (get_threat_summary analyses).low
        = (get_threat_summary analyses).total_vessels := by
    intro analyses
    cases analyses with
    | nil => rfl
    | cons a rest => exact countLevels (a :: rest)
  exact ⟨hmain, fun reports => hmain _⟩

theorem massBranch_strictMono {c e : ℝ} (hc : 0 < c) (he : 0 < e)
    {x y : ℝ} (hx : 0 < x) (hxy : x < y) : c * x ^ e < c * y ^ e :=
  mul_lt_mul_of_pos_left (Real.rpow_lt_rpow hx.le hxy he) hc

theorem massBranch_pos {c x : ℝ} (e : ℝ) (hc : 0 < c) (hx : 0 < x) :
    0 < c * x ^ e :=
  mul_pos hc (Real.rpow_pos_of_pos hx e)

/-- C6: the estimated mass is strictly increasing in length for a fixed
ship-type string (hence fixed category) over positive lengths, and is
strictly positive for every input; an absent or non-positive length is
replaced by the fixed default of 50 m before estimation. -/
theorem C6_mass_mono_pos :
    (∀ (st : String) (l1 l2 : ℚ), 0 < l1 → l1 < l2 →
        estimate_vessel_mass st (some l1) < estimate_vessel_mass st (some l2))
    ∧ (∀ (st : String) (lopt : Option ℚ), 0 < estimate_vessel_mass st lopt)
    ∧ (∀ (st : String) (l : ℚ), l ≤ 0 →
        estimate_vessel_mass st (some l) = estimate_vessel_mass st none)
    ∧ ∀ st : String, estimate_vessel_mass st none = estimate_vessel_mass st (some 50) := by
  refine ⟨?_, ?_, ?_, ?_⟩
  · intro st l1 l2 h0 h12
    have hx : (0 : ℝ) < (l1 : ℝ) := by exact_mod_cast h0
    have hxy : (l1 : ℝ) < (l2 : ℝ) := by exact_mod_cast h12
    simp only [estimate_vessel_mass]
    rw [if_neg (not_le.mpr h0), if_neg (not_le.mpr (h0.trans h12))]
    split_ifs <;> exact massBranch_strictMono (by norm_num) (by norm_num) hx hxy
  · intro st lopt
    rcases lopt with _ | l
    · simp only [estimate_vessel_mass]
      split_ifs <;> exact massBranch_pos _ (by norm_num) (by norm_num)
    · simp only [estimate_vessel_mass]
      by_cases hl : l ≤ 0
      · rw [if_pos hl]
        split_ifs <;> exact massBranch_pos _ (by norm_num) (by norm_num)
      · rw [if_neg hl]
        have hx : (0 : ℝ) < (l : ℝ) := by exact_mod_cast not_le.mp hl
        split_ifs <;> exact massBranch_pos _ (by norm_num) hx
  · intro st l hl
    simp only [estimate_vessel_mass]
    rw [if_pos hl]
  · intro st
    simp only [estimate_vessel_mass]
    rw [if_neg (by norm_num : ¬ (50 : ℚ) ≤ 0)]
    norm_num
